import Mathlib

/-!
Verification development for the todo-list module's data-access layer
(`ToDoListData` in `src/scripts/todo-list.js`).

The layer stores, per user, a flat mapping from todo id to todo record in the
host's per-user flag store, and exposes create / read / update / delete
operations plus an aggregation view over all users.

Modelling choices:
* A JS object is an association list of string-keyed fields; property read
  follows spread semantics (later bindings shadow earlier ones), so an object
  literal built with spreads is embedded as list concatenation.
* A stored collection value is either an object or `null` (`StoreVal`).
* The host's `setFlag` merge-on-write store and its `-=` deletion-sentinel
  convention are host code, not part of this repository; they are modelled
  from the spec's stated contract (see the doc comments on `collSet`,
  `delKey?` and `applyWrite`).
* `foundry.utils.randomID(16)` is modelled as an oracle `gen : Nat → String`
  applied to a call counter `ctr` carried in the game state; the generator is
  consulted once per `createToDo` call, before the user lookup, exactly as in
  the source.
* JS exceptions (`TypeError` on a property read of `undefined`/`null`) are
  modelled with `Except`: an operation returns the post-state together with
  either an error or its JS return value (`Option Unit`, where `none` is
  `undefined` and `some ()` stands for the promise from `setFlag`).
-/

/-- A primitive JS value occurring in a todo record field. -/
inductive JSVal where
  | vStr : String → JSVal
  | vBool : Bool → JSVal
deriving DecidableEq

/-- A JS object: an association list of fields. Later bindings shadow
earlier ones, matching object-literal spread semantics. -/
abbrev JSObj := List (String × JSVal)

/-- JS property read on an object: the last binding of the key wins. -/
def jsGet : JSObj → String → Option JSVal
  | [], _ => none
  | (k, v) :: rest, f =>
    match jsGet rest f with
    | some w => some w
    | none => if k = f then some v else none

/-- A value stored at a key of a flag-store write or collection: a record
object, or JS `null` (used by the deletion-sentinel write). -/
inductive StoreVal where
  | obj : JSObj → StoreVal
  | nul : StoreVal
deriving DecidableEq

/-- A per-user todo collection: a mapping from todo id to stored value. -/
abbrev Coll := List (String × StoreVal)

/-- Key lookup in a collection: the last binding of the key wins,
matching JS object semantics. -/
def collGet : Coll → String → Option StoreVal
  | [], _ => none
  | (k, v) :: rest, i =>
    match collGet rest i with
    | some w => some w
    | none => if k = i then some v else none

/-- Remove every binding of key `k` from a collection. -/
def collErase : Coll → String → Coll
  | [], _ => []
  | p :: rest, k => if p.1 = k then collErase rest k else p :: collErase rest k

/-- Modelled from the spec: writing a sub-key into the host store
overwrites exactly that sub-key and leaves sibling keys untouched
(key-level merge-on-write). -/
def collSet (c : Coll) (k : String) (v : StoreVal) : Coll :=
  collErase c k ++ [(k, v)]

/-- Right-biased merge of two collections, as produced by the JS object
spread in the `allToDos` getter: entries of `b` overwrite entries of `a`. -/
def collMerge (a b : Coll) : Coll :=
  b.foldl (fun acc p => collSet acc p.1 p.2) a

/-- Modelled from the spec: the host store's deletion-sentinel convention.
A write key that carries the sentinel marker in front of a key name `k`
instructs the store to remove `k`; `delKey?` recognises such a key and
returns the key to remove. -/
def delKey? (k : String) : Option String :=
  match k.data with
  | '-' :: '=' :: rest => some (String.mk rest)
  | _ => none

/-- A write sent to the store: a JS object mapping keys to values. -/
abbrev Write := List (String × StoreVal)

/-- Modelled from the spec: `KeyValueStore.set` merge-on-write. Each key of
the write either removes a collection key (deletion sentinel) or overwrites
exactly that key, preserving siblings. -/
def applyWrite (c : Coll) (w : Write) : Coll :=
  w.foldl
    (fun acc kv =>
      match delKey? kv.1 with
      | some k => collErase acc k
      | none => collSet acc kv.1 kv.2)
    c

/-- A known user: its id and its persisted todos flag (`none` when the
flag has never been written). -/
structure User where
  id : String
  todos : Option Coll
deriving DecidableEq

/-- The game state: the host's user list and the id-generator counter. -/
structure GameState where
  users : List User
  ctr : Nat
deriving DecidableEq

/-- `game.users.get(uid)`: first user with the given id, if any. -/
def usersGet : List User → String → Option User
  | [], _ => none
  | u :: rest, uid => if u.id = uid then some u else usersGet rest uid

/-- `game.users.get` applied to the value of a JS field read: the host map
only hits when the argument is a string id (reading `.userId` off a record
may yield `undefined` or a non-string, on which the lookup misses). -/
def usersGetVal (s : GameState) : Option JSVal → Option User
  | some (JSVal.vStr uid) => usersGet s.users uid
  | _ => none

/-- `user.setFlag(ToDoList.ID, ToDoList.FLAGS.TODOS, w)` on the first user
with id `uid`: merge the write into that user's todos flag. -/
def writeTodos : List User → String → Write → List User
  | [], _, _ => []
  | u :: rest, uid, w =>
    if u.id = uid then
      { u with todos := some (applyWrite (u.todos.getD []) w) } :: rest
    else
      u :: writeTodos rest uid w

namespace ToDoListData

/-- `getToDosForUser(userId)`:
`game.users.get(userId)?.getFlag(ToDoList.ID, ToDoList.FLAGS.TODOS)`. -/
def getToDosForUser (s : GameState) (userId : String) : Option Coll :=
  (usersGet s.users userId).bind fun u => u.todos

/-- The `allToDos` getter: `game.users.reduce` of
`{...accumulator, ...this.getToDosForUser(user.id)}` over `{}`;
spreading an `undefined` collection contributes nothing. -/
def allToDos (s : GameState) : Coll :=
  s.users.foldl
    (fun acc u => collMerge acc ((getToDosForUser s u.id).getD []))
    []

/-- The record literal built by `createToDo`:
`{isDone: false, ...toDoData, id: <generated>, userId}`. -/
def mkNewToDo (toDoData : JSObj) (nid userId : String) : JSObj :=
  ("isDone", JSVal.vBool false) ::
    toDoData ++ [("id", JSVal.vStr nid), ("userId", JSVal.vStr userId)]

/-- `createToDo(userId, toDoData)`: generate an id, build the record, then
`game.users.get(userId)?.setFlag(..., {[newToDo.id]: newToDo})`. The id is
generated before the user lookup, so the counter advances even for an
unknown user; the result is `none` (`undefined`) when the lookup misses. -/
def createToDo (gen : Nat → String) (s : GameState) (userId : String)
    (toDoData : JSObj) : GameState × Option Unit :=
  let nid := gen s.ctr
  let newToDo := mkNewToDo toDoData nid userId
  let s1 : GameState := { s with ctr := s.ctr + 1 }
  match usersGet s.users userId with
  | none => (s1, none)
  | some _ =>
      ({ s1 with users := writeTodos s1.users userId [(nid, StoreVal.obj newToDo)] },
       some ())

/-- `updateToDo(toDoId, updateData)`: look the record up in the aggregation
view; reading `.userId` off an absent (or null) record throws a `TypeError`;
otherwise `game.users.get(relevantToDo.userId)?.setFlag(..., {[toDoId]:
updateData})`. -/
def updateToDo (s : GameState) (toDoId : String) (updateData : JSObj) :
    GameState × Except String (Option Unit) :=
  match collGet (allToDos s) toDoId with
  | none => (s, Except.error "TypeError: cannot read userId of undefined")
  | some StoreVal.nul => (s, Except.error "TypeError: cannot read userId of null")
  | some (StoreVal.obj r) =>
      match usersGetVal s (jsGet r "userId") with
      | none => (s, Except.ok none)
      | some u =>
          ({ s with users := writeTodos s.users u.id [(toDoId, StoreVal.obj updateData)] },
           Except.ok (some ()))

/-- `updateUserToDos(userId, updateData)`: direct passthrough write of
`updateData` to the user's todos flag. -/
def updateUserToDos (s : GameState) (userId : String) (updateData : Write) :
    GameState × Option Unit :=
  match usersGet s.users userId with
  | none => (s, none)
  | some _ => ({ s with users := writeTodos s.users userId updateData }, some ())

/-- `deleteToDo(toDoId)`: look the record up in the aggregation view;
reading `.userId` off an absent (or null) record throws a `TypeError`;
otherwise write the deletion-sentinel entry for `toDoId` (value `null`)
to the owner's store. -/
def deleteToDo (s : GameState) (toDoId : String) :
    GameState × Except String (Option Unit) :=
  match collGet (allToDos s) toDoId with
  | none => (s, Except.error "TypeError: cannot read userId of undefined")
  | some StoreVal.nul => (s, Except.error "TypeError: cannot read userId of null")
  | some (StoreVal.obj r) =>
      match usersGetVal s (jsGet r "userId") with
      | none => (s, Except.ok none)
      | some u =>
          ({ s with users := writeTodos s.users u.id [("-=" ++ toDoId, StoreVal.nul)] },
           Except.ok (some ()))

end ToDoListData

/-- Follows the spec's words for the aggregation view, stated per key: for
every known user (via `listUsers`, here the user list in enumeration order),
fetch that user's collection via `getToDosForUser` and merge the results;
a user with no stored collection contributes nothing, and on a key collision
the later user in iteration order overwrites the earlier one. -/
def specMergedView (s : GameState) (i : String) : Option StoreVal :=
  (s.users.map User.id).foldl
    (fun acc uid =>
      match collGet ((ToDoListData.getToDosForUser s uid).getD []) i with
      | some w => some w
      | none => acc)
    none

/-- A concrete injective id generator used to witness the theorems. -/
def gen0 (n : Nat) : String :=
  String.mk (List.replicate (n + 1) 'x')

/-- A concrete stored todo record, owned by user `u1`. -/
def todo1 : JSObj :=
  [("label", JSVal.vStr "buy milk"), ("isDone", JSVal.vBool true),
   ("id", JSVal.vStr "t1"), ("userId", JSVal.vStr "u1")]

/-- A concrete user owning one todo. -/
def user1 : User :=
  { id := "u1", todos := some [("t1", StoreVal.obj todo1)] }

/-- A concrete user with no stored todos flag. -/
def user2 : User :=
  { id := "u2", todos := none }

/-- A concrete game state with two users. -/
def s0 : GameState :=
  { users := [user1, user2], ctr := 0 }

/-! ### Lookup lemmas for objects, collections and the store contract -/

theorem jsGet_append (a b : JSObj) (f : String) :
    jsGet (a ++ b) f =
      match jsGet b f with
      | some w => some w
      | none => jsGet a f := by
  induction a with
  | nil => cases h : jsGet b f <;> simp [jsGet, h]
  | cons p rest ih =>
    obtain ⟨k, v⟩ := p
    simp only [List.cons_append, jsGet, List.append_eq]
    rw [ih]
    cases jsGet b f <;> cases jsGet rest f <;> simp

theorem collGet_append (a b : Coll) (i : String) :
    collGet (a ++ b) i =
      match collGet b i with
      | some w => some w
      | none => collGet a i := by
  induction a with
  | nil => cases h : collGet b i <;> simp [collGet, h]
  | cons p rest ih =>
    obtain ⟨k, v⟩ := p
    simp only [List.cons_append, collGet, List.append_eq]
    rw [ih]
    cases collGet b i <;> cases collGet rest i <;> simp

theorem collGet_erase (c : Coll) (k i : String) :
    collGet (collErase c k) i = if i = k then none else collGet c i := by
  induction c with
  | nil => simp only [collErase, collGet]; split <;> rfl
  | cons p rest ih =>
    obtain ⟨k', v'⟩ := p
    by_cases hk : k' = k
    · have hstep : collErase ((k', v') :: rest) k = collErase rest k := by
        simp [collErase, hk]
      rw [hstep, ih]
      by_cases hi : i = k
      · simp [hi]
      · have hki : k' ≠ i := fun h => hi (hk ▸ h.symm)
        simp only [hi, if_false, collGet]
        cases collGet rest i <;> simp [hki]
    · have hstep : collErase ((k', v') :: rest) k = (k', v') :: collErase rest k := by
        simp [collErase, hk]
      rw [hstep]
      simp only [collGet]
      rw [ih]
      by_cases hi : i = k
      · have hki : k' ≠ i := fun h => hk (h.trans hi)
        simp [hi, hki, hk]
      · simp only [hi, if_false]

theorem collGet_set (c : Coll) (k : String) (v : StoreVal) (i : String) :
    collGet (collSet c k v) i = if i = k then some v else collGet c i := by
  unfold collSet
  rw [collGet_append]
  by_cases hi : i = k
  · subst hi; simp [collGet]
  · have : ¬ (k = i) := fun h => hi h.symm
    simp [collGet, this, collGet_erase, hi]

theorem collGet_merge (a b : Coll) (i : String) :
    collGet (collMerge a b) i =
      match collGet b i with
      | some w => some w
      | none => collGet a i := by
  induction b generalizing a with
  | nil => rfl
  | cons p t ih =>
    obtain ⟨k0, v0⟩ := p
    have hstep : collMerge a ((k0, v0) :: t) = collMerge (collSet a k0 v0) t := rfl
    rw [hstep, ih, collGet_set]
    cases ht : collGet t i with
    | some w => simp [collGet, ht]
    | none =>
      by_cases h0 : k0 = i
      · subst h0; simp [collGet, ht]
      · have : ¬ (i = k0) := fun h' => h0 h'.symm
        simp [collGet, ht, h0, this]

theorem delKey?_sentinel (k : String) : delKey? ("-=" ++ k) = some k := by
  cases k with
  | mk l => rfl

theorem applyWrite_set (c : Coll) (k : String) (v : StoreVal)
    (h : delKey? k = none) : applyWrite c [(k, v)] = collSet c k v := by
  simp [applyWrite, h]

theorem applyWrite_del (c : Coll) (k : String) (v : StoreVal) :
    applyWrite c [("-=" ++ k, v)] = collErase c k := by
  simp [applyWrite, delKey?_sentinel]

/-! ### User-list lemmas -/

theorem writeTodos_map_id (l : List User) (uid : String) (w : Write) :
    (writeTodos l uid w).map User.id = l.map User.id := by
  induction l with
  | nil => rfl
  | cons u rest ih =>
    by_cases h : u.id = uid <;> simp [writeTodos, h, ih]

theorem usersGet_writeTodos (l : List User) (uid : String) (w : Write) (q : String) :
    usersGet (writeTodos l uid w) q =
      if q = uid then
        (usersGet l uid).map fun u =>
          { u with todos := some (applyWrite (u.todos.getD []) w) }
      else usersGet l q := by
  induction l with
  | nil =>
    simp only [writeTodos, usersGet]
    split <;> rfl
  | cons u rest ih =>
    by_cases h : u.id = uid
    · by_cases hq : q = uid
      · subst hq
        simp [writeTodos, usersGet, h]
      · have huq : uid ≠ q := fun h' => hq h'.symm
        simp [writeTodos, usersGet, h, huq, hq]
    · by_cases hq : u.id = q
      · have : q ≠ uid := fun h' => h (hq.trans h')
        simp [writeTodos, usersGet, h, hq, this]
      · simp [writeTodos, usersGet, h, hq, ih]

theorem getToDosForUser_bind (s : GameState) (q : String) :
    ToDoListData.getToDosForUser s q = (usersGet s.users q).bind User.todos := rfl

theorem getToDosForUser_write (base : List User) (c : Nat) (uid : String)
    (w : Write) (q : String) :
    ToDoListData.getToDosForUser { users := writeTodos base uid w, ctr := c } q =
      if q = uid then
        (usersGet base uid).map fun v => applyWrite (v.todos.getD []) w
      else (usersGet base q).bind User.todos := by
  show (usersGet (writeTodos base uid w) q).bind User.todos = _
  rw [usersGet_writeTodos]
  by_cases hq : q = uid
  · simp only [hq, if_true]
    cases usersGet base uid <;> rfl
  · simp [hq]

/-! ### Aggregation-view lemmas -/

theorem collGet_foldl_merge (l : List String) (f : String → Coll) (init : Coll)
    (i : String) :
    collGet (l.foldl (fun acc uid => collMerge acc (f uid)) init) i =
      l.foldl
        (fun acc uid =>
          match collGet (f uid) i with
          | some w => some w
          | none => acc)
        (collGet init i) := by
  induction l generalizing init with
  | nil => rfl
  | cons x t ih =>
    simp only [List.foldl_cons]
    rw [ih, collGet_merge]

theorem allToDos_lookup (s : GameState) (i : String) :
    collGet (ToDoListData.allToDos s) i =
      (s.users.map User.id).foldl
        (fun acc uid =>
          match collGet ((ToDoListData.getToDosForUser s uid).getD []) i with
          | some w => some w
          | none => acc)
        none := by
  unfold ToDoListData.allToDos
  have hmap :
      s.users.foldl
          (fun acc u => collMerge acc ((ToDoListData.getToDosForUser s u.id).getD []))
          [] =
        (s.users.map User.id).foldl
          (fun acc uid => collMerge acc ((ToDoListData.getToDosForUser s uid).getD []))
          [] := by
    rw [List.foldl_map]
  rw [hmap, collGet_foldl_merge]
  rfl

theorem foldl_hit_congr (l : List String) (f g : String → Option StoreVal)
    (h : ∀ x ∈ l, f x = g x) (init : Option StoreVal) :
    l.foldl
        (fun acc uid => match f uid with | some w => some w | none => acc) init =
      l.foldl
        (fun acc uid => match g uid with | some w => some w | none => acc) init := by
  induction l generalizing init with
  | nil => rfl
  | cons x t ih =>
    simp only [List.foldl_cons]
    rw [h x (List.mem_cons_self x t), ih fun y hy => h y (List.mem_cons_of_mem x hy)]

theorem foldl_hit_none (l : List String) (f : String → Option StoreVal)
    (h : ∀ x ∈ l, f x = none) :
    l.foldl
        (fun acc uid => match f uid with | some w => some w | none => acc) none =
      none := by
  induction l with
  | nil => rfl
  | cons x t ih =>
    simp only [List.foldl_cons, h x (List.mem_cons_self x t)]
    exact ih fun y hy => h y (List.mem_cons_of_mem x hy)

/-! ### Owner-resolution lemmas -/

theorem usersGet_id (l : List User) (uid : String) (u : User)
    (h : usersGet l uid = some u) : u.id = uid := by
  induction l with
  | nil => simp [usersGet] at h
  | cons v rest ih =>
    by_cases hv : v.id = uid
    · simp only [usersGet, hv, if_true, Option.some.injEq] at h
      rw [← h]; exact hv
    · simp only [usersGet, hv, if_false] at h
      exact ih h

theorem usersGetVal_some (s : GameState) (ov : Option JSVal) (u : User)
    (h : usersGetVal s ov = some u) : usersGet s.users u.id = some u := by
  match ov with
  | some (JSVal.vStr w) =>
    have hw : usersGet s.users w = some u := h
    rw [usersGet_id s.users w u hw]
    exact hw
  | some (JSVal.vBool b) => exact absurd h (by simp [usersGetVal])
  | none => exact absurd h (by simp [usersGetVal])

/-! ### Record-construction lemmas -/

theorem jsGet_mkNewToDo_id (d : JSObj) (nid uid : String) :
    jsGet (ToDoListData.mkNewToDo d nid uid) "id" = some (JSVal.vStr nid) := by
  show jsGet (("isDone", JSVal.vBool false) ::
      (d ++ [("id", JSVal.vStr nid), ("userId", JSVal.vStr uid)])) "id" = _
  simp only [jsGet]
  rw [jsGet_append]
  simp [jsGet]

theorem jsGet_mkNewToDo_userId (d : JSObj) (nid uid : String) :
    jsGet (ToDoListData.mkNewToDo d nid uid) "userId" = some (JSVal.vStr uid) := by
  show jsGet (("isDone", JSVal.vBool false) ::
      (d ++ [("id", JSVal.vStr nid), ("userId", JSVal.vStr uid)])) "userId" = _
  simp only [jsGet]
  rw [jsGet_append]
  simp [jsGet]

theorem jsGet_mkNewToDo_other (d : JSObj) (nid uid f : String)
    (hid : f ≠ "id") (huid : f ≠ "userId") :
    jsGet (ToDoListData.mkNewToDo d nid uid) f =
      match jsGet d f with
      | some w => some w
      | none => if f = "isDone" then some (JSVal.vBool false) else none := by
  show jsGet (("isDone", JSVal.vBool false) ::
      (d ++ [("id", JSVal.vStr nid), ("userId", JSVal.vStr uid)])) f = _
  simp only [jsGet]
  rw [jsGet_append]
  have h1 : ¬ ("id" = f) := fun h => hid h.symm
  have h2 : ¬ ("userId" = f) := fun h => huid h.symm
  simp only [jsGet, h1, h2, if_false]
  cases jsGet d f with
  | some w => rfl
  | none =>
    by_cases h3 : f = "isDone"
    · subst h3; simp
    · have h4 : ¬ ("isDone" = f) := fun h => h3 h.symm
      simp [h3, h4]

/-! ### Evaluation lemmas for the write operations -/

theorem updateToDo_eq_write (s : GameState) (toDoId : String) (d : JSObj)
    (r : JSObj) (u : User)
    (hfound : collGet (ToDoListData.allToDos s) toDoId = some (StoreVal.obj r))
    (huser : usersGetVal s (jsGet r "userId") = some u) :
    ToDoListData.updateToDo s toDoId d =
      ({ s with users := writeTodos s.users u.id [(toDoId, StoreVal.obj d)] },
       Except.ok (some ())) := by
  simp only [ToDoListData.updateToDo, hfound, huser]

theorem updateToDo_eq_noop (s : GameState) (toDoId : String) (d : JSObj) (r : JSObj)
    (hfound : collGet (ToDoListData.allToDos s) toDoId = some (StoreVal.obj r))
    (huser : usersGetVal s (jsGet r "userId") = none) :
    ToDoListData.updateToDo s toDoId d = (s, Except.ok none) := by
  simp only [ToDoListData.updateToDo, hfound, huser]

theorem updateToDo_eq_error (s : GameState) (toDoId : String) (d : JSObj)
    (h : collGet (ToDoListData.allToDos s) toDoId = none) :
    ToDoListData.updateToDo s toDoId d =
      (s, Except.error "TypeError: cannot read userId of undefined") := by
  simp only [ToDoListData.updateToDo, h]

theorem deleteToDo_eq_write (s : GameState) (toDoId : String) (r : JSObj) (u : User)
    (hfound : collGet (ToDoListData.allToDos s) toDoId = some (StoreVal.obj r))
    (huser : usersGetVal s (jsGet r "userId") = some u) :
    ToDoListData.deleteToDo s toDoId =
      ({ s with users := writeTodos s.users u.id [("-=" ++ toDoId, StoreVal.nul)] },
       Except.ok (some ())) := by
  simp only [ToDoListData.deleteToDo, hfound, huser]

theorem deleteToDo_eq_noop (s : GameState) (toDoId : String) (r : JSObj)
    (hfound : collGet (ToDoListData.allToDos s) toDoId = some (StoreVal.obj r))
    (huser : usersGetVal s (jsGet r "userId") = none) :
    ToDoListData.deleteToDo s toDoId = (s, Except.ok none) := by
  simp only [ToDoListData.deleteToDo, hfound, huser]

theorem deleteToDo_eq_error (s : GameState) (toDoId : String)
    (h : collGet (ToDoListData.allToDos s) toDoId = none) :
    ToDoListData.deleteToDo s toDoId =
      (s, Except.error "TypeError: cannot read userId of undefined") := by
  simp only [ToDoListData.deleteToDo, h]

theorem createToDo_eq_skip (gen : Nat → String) (s : GameState) (uid : String)
    (d : JSObj) (h : usersGet s.users uid = none) :
    ToDoListData.createToDo gen s uid d =
      ({ users := s.users, ctr := s.ctr + 1 }, none) := by
  simp only [ToDoListData.createToDo, h]

theorem createToDo_eq_write (gen : Nat → String) (s : GameState) (uid : String)
    (d : JSObj) (u : User) (hu : usersGet s.users uid = some u) :
    ToDoListData.createToDo gen s uid d =
      ({ users :=
           writeTodos s.users uid
             [(gen s.ctr, StoreVal.obj (ToDoListData.mkNewToDo d (gen s.ctr) uid))],
         ctr := s.ctr + 1 },
       some ()) := by
  simp only [ToDoListData.createToDo, hu]

theorem gen0_injective : Function.Injective gen0 := by
  intro a b h
  have hl : (List.replicate (a + 1) 'x').length = (List.replicate (b + 1) 'x').length := by
    have hd := congrArg String.data h
    simpa [gen0] using congrArg List.length hd
  simpa using hl

/-! ### Claim theorems -/

/-- Claim C4: `getAllToDos()` (the `allToDos` getter) always equals the
merge, over every known user in enumeration order, of that user's
`getToDosForUser` result: users with no stored collection contribute
nothing, every entry of every user's collection appears in the result, and
on a key collision the entry of the later user in iteration order overwrites
the earlier one; the getter is a pure read of the state. -/
theorem allToDos_is_merged_view (s : GameState) (i : String) :
    collGet (ToDoListData.allToDos s) i = specMergedView s i :=
  allToDos_lookup s i

/-- Claim C7: `getToDosForUser(userId)` returns exactly what the user's
store returns for the todos key: `undefined` when the user is unknown or
has no stored todos (never normalized to an empty mapping), and the stored
mapping otherwise; the read is a total function of the state. -/
theorem getToDosForUser_passthrough (s : GameState) (uid : String) :
    (usersGet s.users uid = none → ToDoListData.getToDosForUser s uid = none) ∧
    (∀ u, usersGet s.users uid = some u →
      ToDoListData.getToDosForUser s uid = u.todos) := by
  constructor
  · intro h
    rw [getToDosForUser_bind, h]
    rfl
  · intro u h
    rw [getToDosForUser_bind, h]
    rfl

/-- Witness for claim C7 at a concrete state: a user with a stored
collection, a user with no todos flag, and an unknown user id. -/
theorem getToDosForUser_passthrough_witness :
    ToDoListData.getToDosForUser s0 "u1" = some [("t1", StoreVal.obj todo1)] ∧
    ToDoListData.getToDosForUser s0 "u2" = none ∧
    ToDoListData.getToDosForUser s0 "ghost" = none := by
  refine ⟨?_, ?_, ?_⟩
  · exact (getToDosForUser_passthrough s0 "u1").2 user1 (by decide)
  · exact (getToDosForUser_passthrough s0 "u2").2 user2 (by decide)
  · exact (getToDosForUser_passthrough s0 "ghost").1 (by decide)

/-- Claim C6: for a `userId` naming no known user, `createToDo` raises no
exception (it is a total function here), resolves to `undefined` (`none`),
and mutates no user's collection: the user list is returned unchanged and
only the generator counter advances (the id is drawn before the lookup). -/
theorem createToDo_unknown_user_noop (gen : Nat → String) (s : GameState)
    (uid : String) (d : JSObj) (h : usersGet s.users uid = none) :
    ToDoListData.createToDo gen s uid d =
      ({ users := s.users, ctr := s.ctr + 1 }, none) :=
  createToDo_eq_skip gen s uid d h

/-- Witness for claim C6: creating a todo for an unknown user id in the
concrete state leaves both users' collections untouched and returns
`undefined`. -/
theorem createToDo_unknown_user_noop_witness :
    ToDoListData.createToDo gen0 s0 "ghost" [] =
      ({ users := s0.users, ctr := 1 }, none) :=
  createToDo_unknown_user_noop gen0 s0 "ghost" [] (by decide)

/-- Claim C10: when `updateToDo` or `deleteToDo` is called with an id absent
from the aggregation view, no write is issued to any user's store before the
call finishes — here the call finishes abnormally (a thrown `TypeError`),
and the resulting state is exactly the input state, so every user's
collection is as it was before the call. -/
theorem unknown_id_no_write (s : GameState) (toDoId : String) (d : JSObj)
    (h : collGet (ToDoListData.allToDos s) toDoId = none) :
    (ToDoListData.updateToDo s toDoId d).1 = s ∧
    (∃ e, (ToDoListData.updateToDo s toDoId d).2 = Except.error e) ∧
    (ToDoListData.deleteToDo s toDoId).1 = s ∧
    (∃ e, (ToDoListData.deleteToDo s toDoId).2 = Except.error e) := by
  rw [updateToDo_eq_error s toDoId d h, deleteToDo_eq_error s toDoId h]
  exact ⟨rfl, ⟨_, rfl⟩, rfl, ⟨_, rfl⟩⟩

/-- Witness for claim C10: calling both operations on an id absent from the
concrete state's aggregation view leaves the state exactly unchanged. -/
theorem unknown_id_no_write_witness :
    (ToDoListData.updateToDo s0 "zzz" []).1 = s0 ∧
    (ToDoListData.deleteToDo s0 "zzz").1 = s0 := by
  have h := unknown_id_no_write s0 "zzz" [] (by decide)
  exact ⟨h.1, h.2.2.1⟩

/-- Claim C1: the claim states that for an id absent from the aggregation
view, `updateToDo` and `deleteToDo` do not throw and do not mutate any
user's collection. The code instead throws a `TypeError` (it reads
`.userId` off the `undefined` result of the aggregation lookup, before any
optional chaining applies) and only then would reach a store write; the
no-mutation half does hold. This theorem evaluates the code at a concrete
failing input: the id is absent, both calls finish with an error, and the
state is unchanged. -/
theorem unknown_id_throws_eval :
    collGet (ToDoListData.allToDos s0) "zzz" = none ∧
    (ToDoListData.updateToDo s0 "zzz" [("label", JSVal.vStr "x")]).2 =
      Except.error "TypeError: cannot read userId of undefined" ∧
    (ToDoListData.deleteToDo s0 "zzz").2 =
      Except.error "TypeError: cannot read userId of undefined" ∧
    (ToDoListData.updateToDo s0 "zzz" [("label", JSVal.vStr "x")]).1 = s0 ∧
    (ToDoListData.deleteToDo s0 "zzz").1 = s0 :=
  ⟨rfl, rfl, rfl, rfl, rfl⟩

/-- Claim C2: each record stored by `createToDo` is constructed as
`{isDone: false, ...toDoData, id, userId}`: caller-supplied fields override
the `isDone: false` default (and are otherwise carried over), but the stored
`id` is always the freshly generated identifier and the stored `userId` is
always the calling user, never caller-supplied values; the record is stored
under the generated id, the generator counter advances on every call, and —
assuming the generator never repeats — distinct calls (distinct counter
values) yield distinct ids. -/
theorem createToDo_record_construction (gen : Nat → String)
    (hinj : Function.Injective gen) (s : GameState) (uid : String) (d : JSObj) :
    jsGet (ToDoListData.mkNewToDo d (gen s.ctr) uid) "id" =
      some (JSVal.vStr (gen s.ctr)) ∧
    jsGet (ToDoListData.mkNewToDo d (gen s.ctr) uid) "userId" =
      some (JSVal.vStr uid) ∧
    (jsGet d "isDone" = none →
      jsGet (ToDoListData.mkNewToDo d (gen s.ctr) uid) "isDone" =
        some (JSVal.vBool false)) ∧
    (∀ v, jsGet d "isDone" = some v →
      jsGet (ToDoListData.mkNewToDo d (gen s.ctr) uid) "isDone" = some v) ∧
    (∀ f v, f ≠ "id" → f ≠ "userId" → jsGet d f = some v →
      jsGet (ToDoListData.mkNewToDo d (gen s.ctr) uid) f = some v) ∧
    (ToDoListData.createToDo gen s uid d).1.ctr = s.ctr + 1 ∧
    (∀ u, usersGet s.users uid = some u → delKey? (gen s.ctr) = none →
      collGet
          ((ToDoListData.getToDosForUser
              (ToDoListData.createToDo gen s uid d).1 uid).getD [])
          (gen s.ctr) =
        some (StoreVal.obj (ToDoListData.mkNewToDo d (gen s.ctr) uid))) ∧
    (∀ s2 : GameState, s2.ctr ≠ s.ctr → gen s2.ctr ≠ gen s.ctr) := by
  refine ⟨jsGet_mkNewToDo_id d _ uid, jsGet_mkNewToDo_userId d _ uid,
    ?_, ?_, ?_, ?_, ?_, ?_⟩
  · intro h
    rw [jsGet_mkNewToDo_other d _ uid "isDone" (by decide) (by decide), h]
    rfl
  · intro v h
    rw [jsGet_mkNewToDo_other d _ uid "isDone" (by decide) (by decide), h]
  · intro f v hf1 hf2 h
    rw [jsGet_mkNewToDo_other d _ uid f hf1 hf2, h]
  · cases hu : usersGet s.users uid with
    | none => rw [createToDo_eq_skip gen s uid d hu]
    | some u => rw [createToDo_eq_write gen s uid d u hu]
  · intro u hu hdel
    rw [createToDo_eq_write gen s uid d u hu]
    show collGet ((ToDoListData.getToDosForUser
        { users := writeTodos s.users uid _, ctr := s.ctr + 1 } uid).getD []) _ = _
    rw [getToDosForUser_write, if_pos rfl, hu]
    show collGet (applyWrite (u.todos.getD []) _) _ = _
    rw [applyWrite_set _ _ _ hdel, collGet_set, if_pos rfl]
  · intro s2 hne heq
    exact hne (hinj heq)

/-- Witness for claim C2 at a concrete generator, state and payload: the
generated id lands in the record's `id` field and the record is stored
under that id in the calling user's collection. -/
theorem createToDo_record_construction_witness :
    jsGet (ToDoListData.mkNewToDo [("label", JSVal.vStr "x")] (gen0 0) "u1") "id" =
      some (JSVal.vStr (gen0 0)) ∧
    collGet
        ((ToDoListData.getToDosForUser
            (ToDoListData.createToDo gen0 s0 "u1" [("label", JSVal.vStr "x")]).1
            "u1").getD [])
        (gen0 0) =
      some (StoreVal.obj
        (ToDoListData.mkNewToDo [("label", JSVal.vStr "x")] (gen0 0) "u1")) := by
  have h := createToDo_record_construction gen0 gen0_injective s0 "u1"
    [("label", JSVal.vStr "x")]
  exact ⟨h.1, h.2.2.2.2.2.2.1 user1 (by decide) (by decide)⟩

/-- Claim C8: every write issued by `createToDo` stores the new record under
a key equal to the record's own `id` field: the single-entry mapping written
is keyed by the generated id, the record stored under that key carries that
same id, and `createToDo` preserves the invariant that every record's
storage key equals its `id` field. -/
theorem createToDo_key_matches_id (gen : Nat → String) (s : GameState)
    (uid : String) (d : JSObj) (u : User)
    (hu : usersGet s.users uid = some u)
    (hdel : delKey? (gen s.ctr) = none)
    (hinv : ∀ k r, collGet (u.todos.getD []) k = some (StoreVal.obj r) →
      jsGet r "id" = some (JSVal.vStr k)) :
    collGet
        ((ToDoListData.getToDosForUser
            (ToDoListData.createToDo gen s uid d).1 uid).getD [])
        (gen s.ctr) =
      some (StoreVal.obj (ToDoListData.mkNewToDo d (gen s.ctr) uid)) ∧
    jsGet (ToDoListData.mkNewToDo d (gen s.ctr) uid) "id" =
      some (JSVal.vStr (gen s.ctr)) ∧
    (∀ k r,
      collGet
          ((ToDoListData.getToDosForUser
              (ToDoListData.createToDo gen s uid d).1 uid).getD [])
          k = some (StoreVal.obj r) →
      jsGet r "id" = some (JSVal.vStr k)) := by
  have hcoll :
      (ToDoListData.getToDosForUser
          (ToDoListData.createToDo gen s uid d).1 uid).getD [] =
        collSet (u.todos.getD []) (gen s.ctr)
          (StoreVal.obj (ToDoListData.mkNewToDo d (gen s.ctr) uid)) := by
    rw [createToDo_eq_write gen s uid d u hu]
    show (ToDoListData.getToDosForUser
        { users := writeTodos s.users uid _, ctr := s.ctr + 1 } uid).getD [] = _
    rw [getToDosForUser_write, if_pos rfl, hu]
    show applyWrite (u.todos.getD []) _ = _
    rw [applyWrite_set _ _ _ hdel]
  rw [hcoll]
  refine ⟨?_, jsGet_mkNewToDo_id d _ uid, ?_⟩
  · rw [collGet_set, if_pos rfl]
  · intro k r h
    rw [collGet_set] at h
    by_cases hk : k = gen s.ctr
    · rw [if_pos hk] at h
      have hr : ToDoListData.mkNewToDo d (gen s.ctr) uid = r := by
        injection h with h1
        injection h1
      rw [← hr, hk]
      exact jsGet_mkNewToDo_id d _ uid
    · rw [if_neg hk] at h
      exact hinv k r h

/-- Witness for claim C8: creating a todo for the user with an empty
collection stores the record under the freshly generated id. -/
theorem createToDo_key_matches_id_witness :
    collGet
        ((ToDoListData.getToDosForUser
            (ToDoListData.createToDo gen0 s0 "u2" []).1 "u2").getD [])
        (gen0 0) =
      some (StoreVal.obj (ToDoListData.mkNewToDo [] (gen0 0) "u2")) := by
  have hinv : ∀ k r, collGet (user2.todos.getD []) k = some (StoreVal.obj r) →
      jsGet r "id" = some (JSVal.vStr k) := by
    intro k r h
    simp [user2, collGet] at h
  exact (createToDo_key_matches_id gen0 s0 "u2" [] user2 (by decide) (by decide) hinv).1

/-- Claim C3: for an existing todo id (whose record's `userId` resolves to a
known user), `updateToDo(toDoId, updateData)` writes the single-entry
mapping `{toDoId: updateData}` to the owning user's store: the record stored
at that id becomes `updateData` verbatim — no merge with the prior record's
fields — while the store's key-level merge preserves every sibling id of
that user. -/
theorem updateToDo_replaces_record (s : GameState) (toDoId : String) (d : JSObj)
    (r : JSObj) (u : User)
    (hfound : collGet (ToDoListData.allToDos s) toDoId = some (StoreVal.obj r))
    (huser : usersGetVal s (jsGet r "userId") = some u)
    (hkey : delKey? toDoId = none) :
    (ToDoListData.updateToDo s toDoId d).2 = Except.ok (some ()) ∧
    ToDoListData.getToDosForUser (ToDoListData.updateToDo s toDoId d).1 u.id =
      some (applyWrite (u.todos.getD []) [(toDoId, StoreVal.obj d)]) ∧
    collGet
        ((ToDoListData.getToDosForUser
            (ToDoListData.updateToDo s toDoId d).1 u.id).getD [])
        toDoId = some (StoreVal.obj d) ∧
    (∀ k, k ≠ toDoId →
      collGet
          ((ToDoListData.getToDosForUser
              (ToDoListData.updateToDo s toDoId d).1 u.id).getD [])
          k = collGet (u.todos.getD []) k) := by
  have husers : usersGet s.users u.id = some u := usersGetVal_some s _ u huser
  have hupd := updateToDo_eq_write s toDoId d r u hfound huser
  have hcoll : ToDoListData.getToDosForUser (ToDoListData.updateToDo s toDoId d).1 u.id =
      some (applyWrite (u.todos.getD []) [(toDoId, StoreVal.obj d)]) := by
    rw [hupd]
    show ToDoListData.getToDosForUser
      { users := writeTodos s.users u.id _, ctr := s.ctr } u.id = _
    rw [getToDosForUser_write, if_pos rfl, husers]
    rfl
  refine ⟨by rw [hupd], hcoll, ?_, ?_⟩
  · rw [hcoll]
    show collGet (applyWrite (u.todos.getD []) _) _ = _
    rw [applyWrite_set _ _ _ hkey, collGet_set, if_pos rfl]
  · intro k hk
    rw [hcoll]
    show collGet (applyWrite (u.todos.getD []) _) _ = _
    rw [applyWrite_set _ _ _ hkey, collGet_set, if_neg hk]

/-- Witness for claim C3: replacing the stored record of todo `t1` with a
label-only object leaves exactly that object at `t1` — the prior `isDone`
field is gone. -/
theorem updateToDo_replaces_record_witness :
    collGet
        ((ToDoListData.getToDosForUser
            (ToDoListData.updateToDo s0 "t1" [("label", JSVal.vStr "new")]).1
            "u1").getD [])
        "t1" = some (StoreVal.obj [("label", JSVal.vStr "new")]) := by
  have h := updateToDo_replaces_record s0 "t1" [("label", JSVal.vStr "new")]
    todo1 user1 (by decide) (by decide) (by decide)
  exact h.2.2.1

/-- Claim C9: `updateToDo` and `deleteToDo` select the store to write to
from the found record's `userId` field, not from the collection the record
was found in: for an id present in the aggregation view, the write goes to
the user named by the record's `userId` field (users with any other id are
untouched), and if that field names no known user the operation returns
`undefined` and no store is written. -/
theorem writes_target_record_owner (s : GameState) (toDoId : String) (d : JSObj)
    (r : JSObj)
    (hfound : collGet (ToDoListData.allToDos s) toDoId = some (StoreVal.obj r)) :
    (usersGetVal s (jsGet r "userId") = none →
      ToDoListData.updateToDo s toDoId d = (s, Except.ok none) ∧
      ToDoListData.deleteToDo s toDoId = (s, Except.ok none)) ∧
    (∀ u, usersGetVal s (jsGet r "userId") = some u →
      (ToDoListData.updateToDo s toDoId d).1.users =
        writeTodos s.users u.id [(toDoId, StoreVal.obj d)] ∧
      (ToDoListData.deleteToDo s toDoId).1.users =
        writeTodos s.users u.id [("-=" ++ toDoId, StoreVal.nul)] ∧
      (∀ q, q ≠ u.id →
        ToDoListData.getToDosForUser (ToDoListData.updateToDo s toDoId d).1 q =
          ToDoListData.getToDosForUser s q ∧
        ToDoListData.getToDosForUser (ToDoListData.deleteToDo s toDoId).1 q =
          ToDoListData.getToDosForUser s q)) := by
  refine ⟨?_, ?_⟩
  · intro hnone
    exact ⟨updateToDo_eq_noop s toDoId d r hfound hnone,
      deleteToDo_eq_noop s toDoId r hfound hnone⟩
  · intro u huser
    have hupd := updateToDo_eq_write s toDoId d r u hfound huser
    have hdel := deleteToDo_eq_write s toDoId r u hfound huser
    refine ⟨by rw [hupd], by rw [hdel], ?_⟩
    intro q hq
    constructor
    · rw [hupd]
      show ToDoListData.getToDosForUser
        { users := writeTodos s.users u.id _, ctr := s.ctr } q = _
      rw [getToDosForUser_write, if_neg hq]
      rfl
    · rw [hdel]
      show ToDoListData.getToDosForUser
        { users := writeTodos s.users u.id _, ctr := s.ctr } q = _
      rw [getToDosForUser_write, if_neg hq]
      rfl

/-- Witness for claim C9: updating todo `t1` writes to user `u1`, the user
named by the record's `userId` field, and leaves user `u2` untouched. -/
theorem writes_target_record_owner_witness :
    (ToDoListData.updateToDo s0 "t1" []).1.users =
      writeTodos s0.users "u1" [("t1", StoreVal.obj [])] ∧
    ToDoListData.getToDosForUser (ToDoListData.updateToDo s0 "t1" []).1 "u2" =
      ToDoListData.getToDosForUser s0 "u2" := by
  have h := (writes_target_record_owner s0 "t1" [] todo1 (by decide)).2
    user1 (by decide)
  exact ⟨h.1, (h.2.2 "u2" (by decide)).1⟩

/-- Claim C5: for an existing todo id whose record's `userId` resolves to a
known user and which occurs in no other user's collection, `deleteToDo`
writes only the deletion-sentinel-keyed entry (`-=` before the id, mapped to
null) to the owner's store: exactly that id is removed from the owner's
collection and from the aggregation view, while every other id of that user
and every other user's collection are left unchanged. -/
theorem deleteToDo_removes_exactly_one (s : GameState) (toDoId : String)
    (r : JSObj) (u : User)
    (hfound : collGet (ToDoListData.allToDos s) toDoId = some (StoreVal.obj r))
    (huser : usersGetVal s (jsGet r "userId") = some u)
    (honly : ∀ q, q ≠ u.id →
      collGet ((ToDoListData.getToDosForUser s q).getD []) toDoId = none) :
    (ToDoListData.deleteToDo s toDoId).2 = Except.ok (some ()) ∧
    collGet
        ((ToDoListData.getToDosForUser
            (ToDoListData.deleteToDo s toDoId).1 u.id).getD [])
        toDoId = none ∧
    (∀ k, k ≠ toDoId →
      collGet
          ((ToDoListData.getToDosForUser
              (ToDoListData.deleteToDo s toDoId).1 u.id).getD [])
          k = collGet (u.todos.getD []) k) ∧
    (∀ q, q ≠ u.id →
      ToDoListData.getToDosForUser (ToDoListData.deleteToDo s toDoId).1 q =
        ToDoListData.getToDosForUser s q) ∧
    collGet (ToDoListData.allToDos (ToDoListData.deleteToDo s toDoId).1) toDoId =
      none ∧
    (∀ k, k ≠ toDoId →
      collGet (ToDoListData.allToDos (ToDoListData.deleteToDo s toDoId).1) k =
        collGet (ToDoListData.allToDos s) k) := by
  have husers : usersGet s.users u.id = some u := usersGetVal_some s _ u huser
  have hdel := deleteToDo_eq_write s toDoId r u hfound huser
  have howner :
      ToDoListData.getToDosForUser (ToDoListData.deleteToDo s toDoId).1 u.id =
        some (collErase (u.todos.getD []) toDoId) := by
    rw [hdel]
    show ToDoListData.getToDosForUser
      { users := writeTodos s.users u.id _, ctr := s.ctr } u.id = _
    rw [getToDosForUser_write, if_pos rfl, husers]
    show some (applyWrite (u.todos.getD []) _) = _
    rw [applyWrite_del]
  have hother : ∀ q, q ≠ u.id →
      ToDoListData.getToDosForUser (ToDoListData.deleteToDo s toDoId).1 q =
        ToDoListData.getToDosForUser s q := by
    intro q hq
    rw [hdel]
    show ToDoListData.getToDosForUser
      { users := writeTodos s.users u.id _, ctr := s.ctr } q = _
    rw [getToDosForUser_write, if_neg hq]
    rfl
  have hsame : ToDoListData.getToDosForUser s u.id = u.todos := by
    rw [getToDosForUser_bind, husers]
    rfl
  have hids : (ToDoListData.deleteToDo s toDoId).1.users.map User.id =
      s.users.map User.id := by
    rw [hdel]
    exact writeTodos_map_id s.users u.id _
  have hview : ∀ q,
      collGet
          ((ToDoListData.getToDosForUser
              (ToDoListData.deleteToDo s toDoId).1 q).getD [])
          toDoId = none := by
    intro q
    by_cases hq : q = u.id
    · rw [hq, howner]
      show collGet (collErase (u.todos.getD []) toDoId) toDoId = none
      rw [collGet_erase, if_pos rfl]
    · rw [hother q hq]
      exact honly q hq
  refine ⟨by rw [hdel], ?_, ?_, hother, ?_, ?_⟩
  · rw [howner]
    show collGet (collErase (u.todos.getD []) toDoId) toDoId = none
    rw [collGet_erase, if_pos rfl]
  · intro k hk
    rw [howner]
    show collGet (collErase (u.todos.getD []) toDoId) k = _
    rw [collGet_erase, if_neg hk]
  · rw [allToDos_lookup, hids]
    exact foldl_hit_none _ _ fun x _ => hview x
  · intro k hk
    rw [allToDos_lookup, allToDos_lookup, hids]
    apply foldl_hit_congr
    intro x _
    by_cases hq : x = u.id
    · rw [hq, howner, hsame]
      show collGet (collErase (u.todos.getD []) toDoId) k = _
      rw [collGet_erase, if_neg hk]
    · rw [hother x hq]

/-- Witness for claim C5: deleting todo `t1` in the concrete state removes
it from the aggregation view and leaves user `u2` untouched. -/
theorem deleteToDo_removes_exactly_one_witness :
    collGet (ToDoListData.allToDos (ToDoListData.deleteToDo s0 "t1").1) "t1" =
      none ∧
    ToDoListData.getToDosForUser (ToDoListData.deleteToDo s0 "t1").1 "u2" =
      ToDoListData.getToDosForUser s0 "u2" := by
  have honly : ∀ q, q ≠ user1.id →
      collGet ((ToDoListData.getToDosForUser s0 q).getD []) "t1" = none := by
    intro q hq
    have h1 : ¬ (user1.id = q) := fun h => hq h.symm
    by_cases h2 : user2.id = q
    · have hu : ToDoListData.getToDosForUser s0 q = user2.todos := by
        rw [getToDosForUser_bind]
        show (usersGet [user1, user2] q).bind User.todos = _
        rw [usersGet, if_neg h1, usersGet, if_pos h2]
        rfl
      rw [hu]
      rfl
    · have hu : ToDoListData.getToDosForUser s0 q = none := by
        rw [getToDosForUser_bind]
        show (usersGet [user1, user2] q).bind User.todos = _
        rw [usersGet, if_neg h1, usersGet, if_neg h2, usersGet]
        rfl
      rw [hu]
      rfl
  have h := deleteToDo_removes_exactly_one s0 "t1" todo1 user1
    (by decide) (by decide) honly
  exact ⟨h.2.2.2.2.1, h.2.2.2.1 "u2" (by decide)⟩
